import Mathlib

/-
Verification of the SFNT font-container decoder in sfnt-p.py.

The byte buffer is modelled as a List Nat of byte values.  Python
struct.unpack_from raises struct.error when the buffer holds fewer than
the required bytes past the offset; those reads are modelled as Except
values carrying a PyError.  Python slicing (used by FileParser.seg)
silently truncates, so seg below is total.
-/

/-- Exceptions the decoding paths of sfnt-p.py can raise: struct.error
from struct.unpack_from, and UnicodeDecodeError from bytes.decode. -/
inductive PyError where
  | structError
  | unicodeDecodeError
deriving DecidableEq

instance instDecEqExceptPE {ε α : Type} [DecidableEq ε] [DecidableEq α] :
    DecidableEq (Except ε α) := fun x y =>
  match x, y with
  | .error a, .error b =>
    if h : a = b then .isTrue (by rw [h]) else .isFalse (fun c => h (Except.error.inj c))
  | .ok a, .ok b =>
    if h : a = b then .isTrue (by rw [h]) else .isFalse (fun c => h (Except.ok.inj c))
  | .error _, .ok _ => .isFalse (fun c => Except.noConfusion c)
  | .ok _, .error _ => .isFalse (fun c => Except.noConfusion c)

/-- Big-endian unsigned read of n bytes of d starting at index i,
as performed by the L, H, Q and h codes of struct.unpack_from. -/
def beNat (d : List Nat) (i : Nat) : Nat → Nat
  | 0 => 0
  | n + 1 => beNat d i n * 256 + d.getD (i + n) 0

/-- Reinterpret an unsigned 16-bit value as the signed value struct code
h produces (two's complement). -/
def toI16 (v : Nat) : Int := if v < 32768 then (v : Int) else (v : Int) - 65536

/-- FileParser.seg: Python slice data[start:start+length] with nonnegative
bounds, which silently truncates to the bytes available. -/
def seg (d : List Nat) (start len : Nat) : List Nat := (d.drop start).take len

/-- Big-endian byte serialisation of v on n bytes (used only to craft
round-trip buffers, mirroring the wording of the spec's tests). -/
def bytesOfBE : Nat → Nat → List Nat
  | 0, _ => []
  | n + 1, v => bytesOfBE n (v / 256) ++ [v % 256]

/-- Two's-complement 16-bit encoding of a signed value. -/
def i16enc (x : Int) : Nat := (x % 65536).toNat

/-- One 16-byte table directory record: (tag, checksum, offset, length),
as unpacked by the format 4s3L in FileParser.parse_one. -/
structure TableRec where
  tag : List Nat
  checksum : Nat
  offset : Nat
  length : Nat
deriving DecidableEq

def SFNT_MAGIC_1 : List Nat := [0x4F54544F, 0x00010000]

def SFNT_MAGIC_N : List Nat := [0x74746366]

/-- FileParser.parse_offset_list: reads the leading 32-bit tag; for a
collection reads (tag, major, minor, numFonts) and then numFonts 32-bit
offsets starting at byte 12; for a single font returns the offset 0; for
any other tag returns the empty list. -/
def parse_offset_list (d : List Nat) : Except PyError (List Nat) :=
  if 4 ≤ d.length then
    let magic := beNat d 0 4
    if magic ∈ SFNT_MAGIC_N then
      if 12 ≤ d.length then
        let count := beNat d 8 4
        if 12 + 4 * count ≤ d.length then
          .ok ((List.range count).map fun i => beNat d (12 + 4 * i) 4)
        else .error .structError
      else .error .structError
    else if magic ∈ SFNT_MAGIC_1 then .ok [0]
    else .ok []
  else .error .structError

/-- Loop body of FileParser.parse_one over the table indices: each
iteration unpacks a 16-byte record (4s3L) at offset + 12 + 16 * x. -/
def parse_one_tables (data : List Nat) (offset : Nat) : List Nat → Except PyError (List TableRec)
  | [] => .ok []
  | x :: rest =>
    if offset + 12 + 16 * x + 16 ≤ data.length then
      match parse_one_tables data offset rest with
      | .error e => .error e
      | .ok l =>
        .ok (⟨seg data (offset + 12 + 16 * x) 4,
              beNat data (offset + 12 + 16 * x + 4) 4,
              beNat data (offset + 12 + 16 * x + 8) 4,
              beNat data (offset + 12 + 16 * x + 12) 4⟩ :: l)
    else .error .structError

/-- FileParser.parse_one: unpacks (sfntVersion, numTables, ...) at the
given font offset, then numTables 16-byte table records in disk order. -/
def parse_one (data : List Nat) (offset : Nat) : Except PyError (List TableRec) :=
  if offset + 12 ≤ data.length then
    parse_one_tables data offset (List.range (beNat data (offset + 4) 2))
  else .error .structError

/-- The append loop of FileParser.init over the parsed offsets: fonts
parsed before an exception stay appended; the exception is caught and
parsing stops. -/
def appendFonts (data : List Nat) (acc : List (List TableRec)) : List Nat → List (List TableRec)
  | [] => acc
  | o :: rest =>
    match parse_one data o with
    | .error _ => acc
    | .ok f => appendFonts data (acc ++ [f]) rest

/-- FileParser.init: font_list is a CLASS attribute of FileParser, so a
construction appends to the list shared by every instance; the shared
list before construction is passed explicitly and the list the new
instance observes is returned. -/
def fileParserInit (shared : List (List TableRec)) (data : List Nat) : List (List TableRec) :=
  match parse_offset_list data with
  | .error _ => shared
  | .ok offs => appendFonts data shared offs

/-- A minimal valid single-font buffer: sfntVersion 0x00010000 and
numTables = 0, twelve bytes in all. -/
def c1buf : List Nat := [0, 1, 0, 0, 0, 0, 0, 0, 0, 0, 0, 0]

/-- A ttcf collection buffer with numFonts = 1 whose 32-bit value at byte
12 is 28 while the 32-bit value at byte 16 is 99. -/
def c6buf : List Nat :=
  [116, 116, 99, 102, 0, 1, 0, 0, 0, 0, 0, 1, 0, 0, 0, 28, 0, 0, 0, 99]

/-- A GSUB table slice: one script latn whose Script table has no
default LangSys and one tagged LangSys record ENG with
requiredFeatureIndex 0xFFFF and one feature index 0; the FeatureList
holds the single tag kern. -/
def gsubBuf : List Nat :=
  [0, 1, 0, 0, 0, 10, 0, 36, 0, 0,
   0, 1, 108, 97, 116, 110, 0, 8,
   0, 0, 0, 1,
   69, 78, 71, 32, 0, 10,
   0, 0, 255, 255, 0, 1, 0, 0,
   0, 1, 107, 101, 114, 110, 0, 0]

/-- A name table slice of length 32 with two platform-3 records: the
first declares a one-byte string (invalid big-endian UTF-16, odd byte
count), the second a two-byte string that decodes fine. -/
def nameBadBuf : List Nat :=
  [0, 0, 0, 2, 0, 30,
   0, 3, 0, 1, 4, 9, 0, 1, 0, 1, 0, 0,
   0, 3, 0, 1, 4, 9, 0, 2, 0, 2, 0, 0,
   0, 84]

/-- A name table slice of length 20 with one platform-3 record whose
string decodes as big-endian UTF-16 to the letter T. -/
def nameOkBuf : List Nat :=
  [0, 0, 0, 1, 0, 18,
   0, 3, 0, 1, 4, 9, 0, 1, 0, 2, 0, 0,
   0, 84]

/-- A name table slice of length 20 with one platform-3 record declaring
a 100-byte string span of which only 2 bytes exist in the table. -/
def nameOverBuf : List Nat :=
  [0, 0, 0, 1, 0, 18,
   0, 3, 0, 1, 4, 9, 0, 1, 0, 100, 0, 0,
   0, 84]

/-- Strict big-endian UTF-16 decoding, the behaviour of Python
bytes.decode with the utf_16_be codec: an odd byte count or a lone
surrogate raises UnicodeDecodeError (here: none); a high and low
surrogate pair combines into one supplementary code point. -/
def utf16beChars : List Nat → Option (List Char)
  | [] => some []
  | [_] => none
  | b0 :: b1 :: rest =>
    let u := b0 * 256 + b1
    if 55296 ≤ u ∧ u < 56320 then
      match rest with
      | b2 :: b3 :: rest2 =>
        let v := b2 * 256 + b3
        if 56320 ≤ v ∧ v < 57344 then
          (utf16beChars rest2).map
            (fun cs => Char.ofNat (65536 + (u - 55296) * 1024 + (v - 56320)) :: cs)
        else none
      | _ => none
    else if 56320 ≤ u ∧ u < 57344 then none
    else (utf16beChars rest).map (fun cs => Char.ofNat u :: cs)

/-- Modelled from the spec: the legacy double-byte codepages cp936,
cp950, cp949 and johab selected for platform-3 encoding ids 4 to 7.  The
repository does not contain these codec tables, so only the structure the
spec names (legacy DBCS codepages) is modelled: a byte below 0x80 decodes
as itself, a lead byte 0x81 to 0xFE consumes one trail byte 0x40 to 0xFE
(other than 0x7F) and decodes to a placeholder code point, and anything
else is a decode error. -/
def dbcsChars : List Nat → Option (List Char)
  | [] => some []
  | b :: rest =>
    if b < 128 then (dbcsChars rest).map (fun cs => Char.ofNat b :: cs)
    else if 129 ≤ b ∧ b ≤ 254 then
      match rest with
      | t :: rest2 =>
        if 64 ≤ t ∧ t ≤ 254 ∧ t ≠ 127 then
          (dbcsChars rest2).map (fun cs => Char.ofNat 65533 :: cs)
        else none
      | [] => none
    else none

/-- Strict UTF-8 decoding as performed by Python bytes.decode with the
u8 codec (used on 4-byte tags): overlong forms, surrogates and values
above 0x10FFFF are rejected. -/
def utf8Chars : List Nat → Option (List Char)
  | [] => some []
  | b :: rest =>
    if b < 128 then (utf8Chars rest).map (fun cs => Char.ofNat b :: cs)
    else if 194 ≤ b ∧ b ≤ 223 then
      match rest with
      | c :: rest2 =>
        if 128 ≤ c ∧ c ≤ 191 then
          (utf8Chars rest2).map (fun cs => Char.ofNat ((b - 192) * 64 + (c - 128)) :: cs)
        else none
      | [] => none
    else if 224 ≤ b ∧ b ≤ 239 then
      match rest with
      | c :: e :: rest2 =>
        let lo1 := if b = 224 then 160 else 128
        let hi1 := if b = 237 then 159 else 191
        if (lo1 ≤ c ∧ c ≤ hi1) ∧ (128 ≤ e ∧ e ≤ 191) then
          (utf8Chars rest2).map
            (fun cs => Char.ofNat ((b - 224) * 4096 + (c - 128) * 64 + (e - 128)) :: cs)
        else none
      | _ => none
    else if 240 ≤ b ∧ b ≤ 244 then
      match rest with
      | c :: e :: f :: rest2 =>
        let lo1 := if b = 240 then 144 else 128
        let hi1 := if b = 244 then 143 else 191
        if (lo1 ≤ c ∧ c ≤ hi1) ∧ (128 ≤ e ∧ e ≤ 191) ∧ (128 ≤ f ∧ f ≤ 191) then
          (utf8Chars rest2).map
            (fun cs =>
              Char.ofNat ((b - 240) * 262144 + (c - 128) * 4096 + (e - 128) * 64 + (f - 128)) :: cs)
        else none
      | _ => none
    else none

def utf16beStr (b : List Nat) : Option String := (utf16beChars b).map String.mk

def dbcsStr (b : List Nat) : Option String := (dbcsChars b).map String.mk

def utf8Str (b : List Nat) : Option String := (utf8Chars b).map String.mk

/-- The codec selection of FileParser.parse_name for a platform-3 entry:
encoding 4 uses cp936, 5 uses cp950, 6 uses cp949, 7 uses johab (all four
modelled by dbcsStr, see its docstring), anything else utf_16_be. -/
def decodeByEnc (enc : Nat) (b : List Nat) : Option String :=
  if enc = 4 then dbcsStr b
  else if enc = 5 then dbcsStr b
  else if enc = 6 then dbcsStr b
  else if enc = 7 then dbcsStr b
  else utf16beStr b

/-- One decoded name-table entry, namedtuple name_entry of sfnt-p.py. -/
structure name_entry where
  platform_id : Nat
  encoding_id : Nat
  language_id : Nat
  name_id : Nat
  string : String
deriving DecidableEq

/-- The 6H unpack of one 12-byte name record at the given offset:
(platformId, encodingId, languageId, nameId, length, offset). -/
def unpack6H (d : List Nat) (off : Nat) :
    Except PyError (Nat × Nat × Nat × Nat × Nat × Nat) :=
  if off + 12 ≤ d.length then
    .ok (beNat d off 2, beNat d (off + 2) 2, beNat d (off + 4) 2,
         beNat d (off + 6) 2, beNat d (off + 8) 2, beNat d (off + 10) 2)
  else .error .structError

/-- Loop body of FileParser.parse_name over the record indices: records
with platform id other than 3 are skipped; a platform-3 record slices its
string bytes with seg (silent truncation) and decodes them, and a raised
UnicodeDecodeError aborts the whole loop. -/
def nameEntries (d : List Nat) (strOff : Nat) : List Nat → Except PyError (List name_entry)
  | [] => .ok []
  | i :: rest =>
    match unpack6H d (6 + 12 * i) with
    | .error e => .error e
    | .ok (p, enc, lang, nid, len, off) =>
      if p = 3 then
        match decodeByEnc enc (seg d (strOff + off) len) with
        | none => .error .unicodeDecodeError
        | some s =>
          match nameEntries d strOff rest with
          | .error e => .error e
          | .ok l => .ok (⟨p, enc, lang, nid, s⟩ :: l)
      else nameEntries d strOff rest

/-- FileParser.parse_name: slices the table, unpacks the 3H header
(format, count, stringOffset) and runs the record loop. -/
def parse_name (data : List Nat) (t : TableRec) : Except PyError (List name_entry) :=
  let d := seg data t.offset t.length
  if 6 ≤ d.length then
    nameEntries d (beNat d 4 2) (List.range (beNat d 2 2))
  else .error .structError

/-- The head table record, namedtuple head_table of sfnt-p.py. -/
structure head_table where
  major_version : Nat
  minor_version : Nat
  font_revision : Nat
  checksum_adjustment : Nat
  magic_number : Nat
  flags : Nat
  units_per_em : Nat
  created : Nat
  modified : Nat
  x_min : Int
  y_min : Int
  x_max : Int
  y_max : Int
  mac_style : Nat
  lowest_rec_ppem : Nat
  font_direction_hint : Int
  index_to_loc_format : Int
  glyph_data_format : Int
deriving DecidableEq

/-- FileParser.parse_head: slices the table and unpacks the 54-byte
format 2H3L2H2Q4h2H3h into the 18 fields of head_table. -/
def parse_head (data : List Nat) (t : TableRec) : Except PyError head_table :=
  let d := seg data t.offset t.length
  if 54 ≤ d.length then
    .ok ⟨beNat d 0 2, beNat d 2 2, beNat d 4 4, beNat d 8 4, beNat d 12 4,
         beNat d 16 2, beNat d 18 2, beNat d 20 8, beNat d 28 8,
         toI16 (beNat d 36 2), toI16 (beNat d 38 2), toI16 (beNat d 40 2),
         toI16 (beNat d 42 2), beNat d 44 2, beNat d 46 2,
         toI16 (beNat d 48 2), toI16 (beNat d 50 2), toI16 (beNat d 52 2)⟩
  else .error .structError

/-- A crafted head table buffer whose 18 fields are written big-endian
with the given values (signed fields in two's complement), as in the
round-trip test the spec states. -/
def encodeHead (mj mn rev chk mg fl up cr md : Nat) (x0 y0 x1 y1 : Int)
    (ms lp : Nat) (fd lf gd : Int) : List Nat :=
  bytesOfBE 2 mj ++ (bytesOfBE 2 mn ++ (bytesOfBE 4 rev ++ (bytesOfBE 4 chk ++
  (bytesOfBE 4 mg ++ (bytesOfBE 2 fl ++ (bytesOfBE 2 up ++ (bytesOfBE 8 cr ++
  (bytesOfBE 8 md ++ (bytesOfBE 2 (i16enc x0) ++ (bytesOfBE 2 (i16enc y0) ++
  (bytesOfBE 2 (i16enc x1) ++ (bytesOfBE 2 (i16enc y1) ++ (bytesOfBE 2 ms ++
  (bytesOfBE 2 lp ++ (bytesOfBE 2 (i16enc fd) ++ (bytesOfBE 2 (i16enc lf) ++
  (bytesOfBE 2 (i16enc gd) ++ ([] : List Nat))))))))))))))))))

/-- The metrics header record, namedtuple xhea_table of sfnt-p.py,
shared by the hhea and vhea tags. -/
structure xhea_table where
  ascender : Int
  descender : Int
  line_gap : Int
  advance_width_max : Nat
  min_left_side_bearing : Int
  min_right_side_bearing : Int
  x_max_extent : Int
  caret_slope_rise : Int
  caret_slope_run : Int
  caret_offset : Int
  metric_data_format : Int
  number_of_h_metrics : Nat
deriving DecidableEq

/-- FileParser.parse_xhea: slices the table, unpacks the 36-byte format
2H3hH3h3h8xhH and drops the two leading version fields. -/
def parse_xhea (data : List Nat) (t : TableRec) : Except PyError xhea_table :=
  let d := seg data t.offset t.length
  if 36 ≤ d.length then
    .ok ⟨toI16 (beNat d 4 2), toI16 (beNat d 6 2), toI16 (beNat d 8 2),
         beNat d 10 2, toI16 (beNat d 12 2), toI16 (beNat d 14 2),
         toI16 (beNat d 16 2), toI16 (beNat d 18 2), toI16 (beNat d 20 2),
         toI16 (beNat d 22 2), toI16 (beNat d 32 2), beNat d 34 2⟩
  else .error .structError

/-- The field names of xhea_table in declaration order, as iterated by
DirectoryWidget.show_xhea. -/
def xhea_fields : List String :=
  ["ascender", "descender", "line_gap", "advance_width_max",
   "min_left_side_bearing", "min_right_side_bearing", "x_max_extent",
   "caret_slope_rise", "caret_slope_run", "caret_offset",
   "metric_data_format", "number_of_h_metrics"]

/-- The substitution pairs of dict xhea_translation, in insertion order. -/
def xheaRenames : List (String × String) :=
  [("_width_", "_height_"), ("_left_", "_top_"), ("_right_", "_bottom_"),
   ("_h_", "_v_"), ("x_max_", "y_max_")]

/-- Fuel-driven scanner behind replaceChars; the fuel bounds the number
of scanning steps so the recursion is structural, and it is always
started with the length of the scanned list, which one step never
consumes less of than fuel. -/
def replaceCharsAux (pat rep : List Char) : Nat → List Char → List Char
  | _, [] => []
  | 0, s => s
  | fuel + 1, c :: rest =>
    if pat ≠ [] ∧ pat.isPrefixOf (c :: rest) then
      rep ++ replaceCharsAux pat rep fuel ((c :: rest).drop pat.length)
    else c :: replaceCharsAux pat rep fuel rest

/-- Python str.replace on character lists: every non-overlapping
occurrence of pat, scanning left to right, is replaced by rep. -/
def replaceChars (pat rep s : List Char) : List Char :=
  replaceCharsAux pat rep s.length s

/-- The label rewriting DirectoryWidget.show_xhea applies to one field
name when the tag is vhea: each substitution of dict xhea_translation in
insertion order, via str.replace. -/
def xheaTranslate (s : String) : String :=
  String.mk (xheaRenames.foldl (fun acc p => replaceChars p.1.data p.2.data acc) s.data)

/-- DirectoryWidget.show_xhea as observable data: the field labels of the
dialog and the decoded values.  The tag only selects the labels; the
values always come from FileParser.parse_xhea. -/
def show_xhea (tag : String) (data : List Nat) (t : TableRec) :
    List String × Except PyError xhea_table :=
  (if tag = "vhea" then xhea_fields.map xheaTranslate else xhea_fields,
   parse_xhea data t)

/-- The check of struct.unpack_from: offset + size must fit. -/
def unpackCheck (d : List Nat) (off size : Nat) : Except PyError Unit :=
  if off + size ≤ d.length then .ok () else .error .structError

/-- A run of n consecutive big-endian 16-bit values starting at off, as
unpacked by a repeated H format. -/
def readList16 (d : List Nat) (off n : Nat) : List Nat :=
  (List.range n).map fun i => beNat d (off + 2 * i) 2

/-- One LangSys record at absolute offset base inside a GSUB or GPOS
table slice: unpacks (lookupOrder, requiredFeatureIndex, featureCount)
and then the feature indices; the required index is returned verbatim. -/
def parseLangSysAt (d : List Nat) (base : Nat) : Except PyError (Nat × List Nat) :=
  if base + 6 ≤ d.length then
    let fCount := beNat d (base + 4) 2
    if base + 6 + 2 * fCount ≤ d.length then
      .ok (beNat d (base + 2) 2, readList16 d (base + 6) fCount)
    else .error .structError
  else .error .structError

/-- The tagged LangSys loop of FileParser.parse_gsub_gpos: for each
index y, unpack (langSysTag, langSysOffset) at sOff + 4 + 6 * y, resolve
the offset relative to the Script table and keep (tag, required, feature)
with the required index verbatim. -/
def parseLangSysRecords (d : List Nat) (sOff : Nat) :
    List Nat → Except PyError (List (String × Nat × List Nat))
  | [] => .ok []
  | y :: rest =>
    match unpackCheck d (sOff + 4 + 6 * y) 6 with
    | .error e => .error e
    | .ok _ =>
      let lOff := beNat d (sOff + 4 + 6 * y + 4) 2 + sOff
      match parseLangSysAt d lOff with
      | .error e => .error e
      | .ok (required, feature) =>
        match utf8Str (seg d (sOff + 4 + 6 * y) 4) with
        | none => .error .unicodeDecodeError
        | some tg =>
          match parseLangSysRecords d sOff rest with
          | .error e => .error e
          | .ok l => .ok ((tg, required, feature) :: l)

/-- The ScriptList loop of FileParser.parse_gsub_gpos: for each index x,
unpack (scriptTag, scriptOffset) at sListOff + 2 + 6 * x, resolve the
Script table, read the default LangSys when its offset is nonzero (its
required index is read and discarded), then the tagged LangSys records. -/
def parseScripts (d : List Nat) (sListOff : Nat) :
    List Nat → Except PyError (List (String × Option (List Nat) × List (String × Nat × List Nat)))
  | [] => .ok []
  | x :: rest =>
    match unpackCheck d (sListOff + 2 + 6 * x) 6 with
    | .error e => .error e
    | .ok _ =>
      let sOff := beNat d (sListOff + 2 + 6 * x + 4) 2 + sListOff
      match unpackCheck d sOff 4 with
      | .error e => .error e
      | .ok _ =>
        let dlsOff := beNat d sOff 2
        let dflt : Except PyError (Option (List Nat)) :=
          if dlsOff ≠ 0 then
            match parseLangSysAt d (dlsOff + sOff) with
            | .error e => .error e
            | .ok (_, feature) => .ok (some feature)
          else .ok none
        match dflt with
        | .error e => .error e
        | .ok dfltv =>
          match parseLangSysRecords d sOff (List.range (beNat d (sOff + 2) 2)) with
          | .error e => .error e
          | .ok langs =>
            match utf8Str (seg d (sListOff + 2 + 6 * x) 4) with
            | none => .error .unicodeDecodeError
            | some tg =>
              match parseScripts d sListOff rest with
              | .error e => .error e
              | .ok l => .ok ((tg, dfltv, langs) :: l)

/-- The FeatureList loop of FileParser.parse_gsub_gpos: for each index x,
unpack (featureTag, featureOffset) at fListOff + 2 + 6 * x and keep only
the decoded tag. -/
def parseFeatures (d : List Nat) (fListOff : Nat) : List Nat → Except PyError (List String)
  | [] => .ok []
  | x :: rest =>
    match unpackCheck d (fListOff + 2 + 6 * x) 6 with
    | .error e => .error e
    | .ok _ =>
      match utf8Str (seg d (fListOff + 2 + 6 * x) 4) with
      | none => .error .unicodeDecodeError
      | some tg =>
        match parseFeatures d fListOff rest with
        | .error e => .error e
        | .ok l => .ok (tg :: l)

instance instDecEqScriptEntry :
    DecidableEq (String × Option (List Nat) × List (String × Nat × List Nat)) :=
  instDecidableEqProd

/-- FileParser.parse_gsub_gpos: slices the table, unpacks the 5H header,
decodes the ScriptList at its offset and then the FeatureList at its
offset, returning the pair of results. -/
def parse_gsub_gpos (data : List Nat) (t : TableRec) :
    Except PyError
      (List (String × Option (List Nat) × List (String × Nat × List Nat)) × List String) :=
  let d := seg data t.offset t.length
  match unpackCheck d 0 10 with
  | .error e => .error e
  | .ok _ =>
    let sListOff := beNat d 4 2
    let fListOff := beNat d 6 2
    match unpackCheck d sListOff 2 with
    | .error e => .error e
    | .ok _ =>
      match parseScripts d sListOff (List.range (beNat d sListOff 2)) with
      | .error e => .error e
      | .ok sList =>
        match unpackCheck d fListOff 2 with
        | .error e => .error e
        | .ok _ =>
          match parseFeatures d fListOff (List.range (beNat d fListOff 2)) with
          | .error e => .error e
          | .ok fList => .ok (sList, fList)

theorem length_bytesOfBE (n v : Nat) : (bytesOfBE n v).length = n := by
  induction n generalizing v with
  | zero => rfl
  | succ n ih => simp [bytesOfBE, ih]

theorem beNat_shift (x r : List Nat) (i n : Nat) :
    beNat (x ++ r) (x.length + i) n = beNat r i n := by
  induction n with
  | zero => rfl
  | succ n ih =>
    simp only [beNat, ih]
    have he : x.length + i + n = x.length + (i + n) := by omega
    rw [he, List.getD_append_right _ _ _ _ (by omega)]
    have h2 : x.length + (i + n) - x.length = i + n := by omega
    rw [h2]

theorem beNat_skip (m v i n : Nat) (r : List Nat) (h : m ≤ i) :
    beNat (bytesOfBE m v ++ r) i n = beNat r (i - m) n := by
  have h2 := beNat_shift (bytesOfBE m v) r (i - m) n
  rw [length_bytesOfBE] at h2
  have h3 : m + (i - m) = i := by omega
  rw [h3] at h2
  exact h2

theorem beNat_bytes (n v : Nat) (r : List Nat) (hv : v < 256 ^ n) :
    beNat (bytesOfBE n v ++ r) 0 n = v := by
  induction n generalizing v r with
  | zero =>
    have : v = 0 := by simpa using hv
    simp [beNat, this]
  | succ n ih =>
    have hb : bytesOfBE (n + 1) v = bytesOfBE n (v / 256) ++ [v % 256] := rfl
    have hdiv : v / 256 < 256 ^ n := by
      rw [Nat.div_lt_iff_lt_mul (by norm_num)]
      calc v < 256 ^ (n + 1) := hv
        _ = 256 ^ n * 256 := by ring
    simp only [beNat, hb, List.append_assoc]
    rw [ih (v / 256) _ hdiv]
    rw [List.getD_append_right _ _ _ _ (by rw [length_bytesOfBE]; omega)]
    rw [length_bytesOfBE]
    simp only [Nat.add_sub_cancel, Nat.zero_add, Nat.sub_self]
    simp [List.getD]
    omega

theorem beNat_here2 (v : Nat) (r : List Nat) (hv : v < 65536) :
    beNat (bytesOfBE 2 v ++ r) 0 2 = v := beNat_bytes 2 v r (by norm_num; omega)

theorem beNat_here4 (v : Nat) (r : List Nat) (hv : v < 4294967296) :
    beNat (bytesOfBE 4 v ++ r) 0 4 = v := beNat_bytes 4 v r (by norm_num; omega)

theorem beNat_here8 (v : Nat) (r : List Nat) (hv : v < 18446744073709551616) :
    beNat (bytesOfBE 8 v ++ r) 0 8 = v := beNat_bytes 8 v r (by norm_num; omega)

theorem i16enc_lt (x : Int) : i16enc x < 65536 := by
  have h := Int.emod_lt_of_pos x (by norm_num : (0 : Int) < 65536)
  have h2 := Int.emod_nonneg x (by norm_num : (65536 : Int) ≠ 0)
  unfold i16enc
  omega

theorem beNat_here2i (x : Int) (r : List Nat) :
    beNat (bytesOfBE 2 (i16enc x) ++ r) 0 2 = i16enc x :=
  beNat_here2 _ r (i16enc_lt x)

theorem toI16_i16enc (x : Int) (h0 : -32768 ≤ x) (h1 : x < 32768) :
    toI16 (i16enc x) = x := by
  have h := Int.emod_lt_of_pos x (by norm_num : (0 : Int) < 65536)
  have h2 := Int.emod_nonneg x (by norm_num : (65536 : Int) ≠ 0)
  unfold toI16 i16enc
  split
  · omega
  · omega

theorem length_seg (d : List Nat) (s l : Nat) :
    (seg d s l).length = min l (d.length - s) := by
  simp [seg]

/-- C10: FileParser.seg is total and never raises: for every buffer,
start and length it returns the slice data[start:start+length] silently
truncated to the bytes actually available, so its length is the minimum
of the declared length and the bytes past start, and every byte of the
result is the corresponding byte of the buffer. -/
theorem seg_silently_truncates (d : List Nat) (s l : Nat) :
    (seg d s l).length = min l (d.length - s) ∧
    ∀ i, i < (seg d s l).length → (seg d s l).getD i 0 = d.getD (s + i) 0 := by
  refine ⟨length_seg d s l, ?_⟩
  intro i hi
  rw [length_seg] at hi
  have hil : i < l := lt_of_lt_of_le hi (min_le_left _ _)
  rw [List.getD_eq_getElem?_getD, List.getD_eq_getElem?_getD]
  simp only [seg, List.getElem?_take, hil, if_pos, List.getElem?_drop]

/-- Witness for C10 at a concrete buffer, start past the data and length
past the end. -/
theorem seg_silently_truncates_w :
    ((seg [5, 6, 7] 1 5).length = min 5 2 ∧
      (seg [5, 6, 7] 1 5).getD 0 0 = [5, 6, 7].getD 1 0) :=
  ⟨(seg_silently_truncates [5, 6, 7] 1 5).1,
   (seg_silently_truncates [5, 6, 7] 1 5).2 0 (by decide)⟩

theorem parse_offset_list_ttcf (d : List Nat) (h : beNat d 0 4 = 0x74746366)
    (hn : 12 + 4 * beNat d 8 4 ≤ d.length) :
    parse_offset_list d =
      .ok ((List.range (beNat d 8 4)).map fun i => beNat d (12 + 4 * i) 4) := by
  have h4 : 4 ≤ d.length := by omega
  have h12 : 12 ≤ d.length := by omega
  simp [parse_offset_list, h, h4, h12, hn, SFNT_MAGIC_N, SFNT_MAGIC_1]

theorem parse_offset_list_single (d : List Nat) (h4 : 4 ≤ d.length)
    (h : beNat d 0 4 = 0x00010000 ∨ beNat d 0 4 = 0x4F54544F) :
    parse_offset_list d = .ok [0] := by
  rcases h with h | h <;>
    simp [parse_offset_list, h, h4, SFNT_MAGIC_N, SFNT_MAGIC_1]

theorem parse_offset_list_other (d : List Nat) (h4 : 4 ≤ d.length)
    (h1 : beNat d 0 4 ≠ 0x00010000) (h2 : beNat d 0 4 ≠ 0x4F54544F)
    (h3 : beNat d 0 4 ≠ 0x74746366) :
    parse_offset_list d = .ok [] := by
  simp [parse_offset_list, h4, h1, h2, h3, SFNT_MAGIC_N, SFNT_MAGIC_1]

/-- C4: parse_offset_list returns exactly [0] when the leading big-endian
tag is 0x00010000 or OTTO, exactly numFonts offsets read big-endian at
their positions for a ttcf buffer that holds them, and the empty list
with no error for any other leading tag. -/
theorem parse_offset_list_spec (d : List Nat) (h4 : 4 ≤ d.length) :
    ((beNat d 0 4 = 0x00010000 ∨ beNat d 0 4 = 0x4F54544F) →
      parse_offset_list d = .ok [0]) ∧
    (beNat d 0 4 = 0x74746366 → 12 + 4 * beNat d 8 4 ≤ d.length →
      parse_offset_list d =
        .ok ((List.range (beNat d 8 4)).map fun i => beNat d (12 + 4 * i) 4)) ∧
    (beNat d 0 4 ≠ 0x00010000 → beNat d 0 4 ≠ 0x4F54544F →
      beNat d 0 4 ≠ 0x74746366 → parse_offset_list d = .ok []) :=
  ⟨parse_offset_list_single d h4,
   fun h hn => parse_offset_list_ttcf d h hn,
   parse_offset_list_other d h4⟩

/-- Witness for C4 at the concrete collection buffer c6buf. -/
theorem parse_offset_list_spec_w : parse_offset_list c6buf = .ok [28] := by
  have h := (parse_offset_list_spec c6buf (by decide)).2.1 (by decide) (by decide)
  rw [h]
  decide

/-- C6 counterexample: on the concrete collection buffer c6buf, whose
32-bit value at byte 12 is 28 and whose 32-bit value at byte 16 is 99,
parse_offset_list returns [28]: the first font-directory offset is read
at byte position 12, not at byte position 16 as the claim states. -/
theorem ttcf_offset_read_at_12_not_16 :
    parse_offset_list c6buf = .ok [28] ∧ beNat c6buf 16 4 = 99 ∧ (28 : Nat) ≠ 99 := by
  decide

/-- C6 amended: for every collection buffer, the numFonts offsets are
read starting at byte position 12, immediately after the 12-byte
collection header (tag, majorVersion, minorVersion, numFonts): the i-th
offset is the big-endian 32-bit value at byte 12 + 4 * i. -/
theorem ttcf_offsets_follow_12_byte_header (d : List Nat)
    (h : beNat d 0 4 = 0x74746366) (hn : 12 + 4 * beNat d 8 4 ≤ d.length) :
    ∃ offs, parse_offset_list d = .ok offs ∧ offs.length = beNat d 8 4 ∧
      ∀ i, i < beNat d 8 4 → offs.getD i 0 = beNat d (12 + 4 * i) 4 := by
  refine ⟨_, parse_offset_list_ttcf d h hn, by simp, ?_⟩
  intro i hi
  rw [List.getD_eq_getElem?_getD, List.getElem?_map, List.getElem?_range hi]
  rfl

/-- Witness for C6 amended at the concrete buffer c6buf. -/
theorem ttcf_offsets_follow_12_byte_header_w :
    ∃ offs, parse_offset_list c6buf = .ok offs ∧ offs.length = beNat c6buf 8 4 ∧
      ∀ i, i < beNat c6buf 8 4 → offs.getD i 0 = beNat c6buf (12 + 4 * i) 4 :=
  ttcf_offsets_follow_12_byte_header c6buf (by decide) (by decide)

/-- C1: font_list is a class attribute of FileParser, so decoding is not
free of shared mutable state: constructing a parser twice over the very
same bytes yields different observed font lists (one font after the
first construction, that font twice after the second), because the
second construction appends to the list populated by the first. -/
theorem font_list_shared_across_instances :
    (fileParserInit [] c1buf).length = 1 ∧
    (fileParserInit (fileParserInit [] c1buf) c1buf).length = 2 := by
  decide

/-- C5: round-trip for the head table: decoding a crafted buffer whose
18 fields are written big-endian with known in-range values returns a
record whose 18 fields equal those values, including negative
bounding-box coordinates (encoded in two's complement). -/
theorem parse_head_round_trip (mj mn rev chk mg fl up cr md : Nat) (x0 y0 x1 y1 : Int)
    (ms lp : Nat) (fd lf gd : Int)
    (hmj : mj < 65536) (hmn : mn < 65536) (hrev : rev < 4294967296)
    (hchk : chk < 4294967296) (hmg : mg < 4294967296) (hfl : fl < 65536)
    (hup : up < 65536) (hcr : cr < 18446744073709551616)
    (hmd : md < 18446744073709551616)
    (hx0a : -32768 ≤ x0) (hx0b : x0 < 32768) (hy0a : -32768 ≤ y0) (hy0b : y0 < 32768)
    (hx1a : -32768 ≤ x1) (hx1b : x1 < 32768) (hy1a : -32768 ≤ y1) (hy1b : y1 < 32768)
    (hms : ms < 65536) (hlp : lp < 65536)
    (hfd : -32768 ≤ fd) (hfd2 : fd < 32768) (hlf : -32768 ≤ lf) (hlf2 : lf < 32768)
    (hgd : -32768 ≤ gd) (hgd2 : gd < 32768) :
    parse_head (encodeHead mj mn rev chk mg fl up cr md x0 y0 x1 y1 ms lp fd lf gd)
      ⟨[104, 101, 97, 100], 0, 0, 54⟩ =
      .ok ⟨mj, mn, rev, chk, mg, fl, up, cr, md, x0, y0, x1, y1, ms, lp, fd, lf, gd⟩ := by
  have hlen :
      (encodeHead mj mn rev chk mg fl up cr md x0 y0 x1 y1 ms lp fd lf gd).length = 54 := by
    simp [encodeHead, length_bytesOfBE]
  have hseg : seg (encodeHead mj mn rev chk mg fl up cr md x0 y0 x1 y1 ms lp fd lf gd) 0 54 =
      encodeHead mj mn rev chk mg fl up cr md x0 y0 x1 y1 ms lp fd lf gd := by
    rw [seg, List.drop_zero, ← hlen, List.take_length]
  simp only [parse_head, hseg, hlen]
  rw [if_pos (by omega)]
  simp (disch := omega) only [encodeHead, beNat_skip, Nat.reduceSub, beNat_here2,
    beNat_here4, beNat_here8, beNat_here2i, toI16_i16enc, Except.ok.injEq]

/-- Witness for C5 at concrete values with negative bounding-box
coordinates. -/
theorem parse_head_round_trip_w :
    parse_head (encodeHead 1 0 65536 305419896 1594834165 3 1000 100 200
        (-12) (-34) 56 78 1 9 2 0 1) ⟨[104, 101, 97, 100], 0, 0, 54⟩ =
      .ok ⟨1, 0, 65536, 305419896, 1594834165, 3, 1000, 100, 200,
           -12, -34, 56, 78, 1, 9, 2, 0, 1⟩ :=
  parse_head_round_trip 1 0 65536 305419896 1594834165 3 1000 100 200
    (-12) (-34) 56 78 1 9 2 0 1
    (by decide) (by decide) (by decide) (by decide) (by decide) (by decide)
    (by decide) (by decide) (by decide) (by decide) (by decide) (by decide)
    (by decide) (by decide) (by decide) (by decide) (by decide) (by decide)
    (by decide) (by decide) (by decide) (by decide) (by decide) (by decide)
    (by decide)

/-- C9 counterexample: a 54-byte all-zero head table, whose magic-number
field 0 differs from the expected constant 0x5F0F3CF5, decodes to a plain
success carrying the fully decoded struct and nothing else: no
IntegrityMismatch anomaly or warning of any kind accompanies the result,
because parse_head never inspects the magic-number field. -/
theorem parse_head_accepts_bad_magic :
    parse_head (List.replicate 54 0) ⟨[104, 101, 97, 100], 0, 0, 54⟩ =
      .ok ⟨0, 0, 0, 0, 0, 0, 0, 0, 0, 0, 0, 0, 0, 0, 0, 0, 0, 0⟩ ∧
    (0 : Nat) ≠ 0x5F0F3CF5 := by
  decide

/-- C9 amended: for every head table slice long enough to unpack,
parse_head returns the fully decoded 18-field struct whose magic-number
field is simply the 32-bit value read at byte 12 of the slice; no
comparison against the expected constant is performed and no warning or
anomaly is reported on a mismatch. -/
theorem parse_head_no_magic_check (data : List Nat) (t : TableRec)
    (h : 54 ≤ (seg data t.offset t.length).length) :
    ∃ r, parse_head data t = .ok r ∧
      r.magic_number = beNat (seg data t.offset t.length) 12 4 := by
  simp only [parse_head]
  rw [if_pos h]
  exact ⟨_, rfl, rfl⟩

/-- Witness for C9 amended at the all-zero head table. -/
theorem parse_head_no_magic_check_w :
    ∃ r, parse_head (List.replicate 54 0) ⟨[104, 101, 97, 100], 0, 0, 54⟩ = .ok r ∧
      r.magic_number =
        beNat (seg (List.replicate 54 0) (TableRec.offset ⟨[104, 101, 97, 100], 0, 0, 54⟩)
          (TableRec.length ⟨[104, 101, 97, 100], 0, 0, 54⟩)) 12 4 :=
  parse_head_no_magic_check (List.replicate 54 0) ⟨[104, 101, 97, 100], 0, 0, 54⟩ (by decide)

/-- C8: the hhea/vhea decoder skips the 2-field version and returns the
same 12 decoded scalar values regardless of the table tag: the values
component of show_xhea is the same for any two tags, parse_xhea reads
the fixed layout starting at byte 4 of the slice, and the tag only
selects the presented field labels: unchanged for hhea, and rewritten
for vhea through the fixed width to height, left to top, right to
bottom, h to v, x-max to y-max substitutions. -/
theorem show_xhea_axis_only_labels (tagA tagB : String) (data : List Nat) (t : TableRec)
    (h : 36 ≤ (seg data t.offset t.length).length) :
    (show_xhea tagA data t).2 = (show_xhea tagB data t).2 ∧
    parse_xhea data t =
      .ok ⟨toI16 (beNat (seg data t.offset t.length) 4 2),
           toI16 (beNat (seg data t.offset t.length) 6 2),
           toI16 (beNat (seg data t.offset t.length) 8 2),
           beNat (seg data t.offset t.length) 10 2,
           toI16 (beNat (seg data t.offset t.length) 12 2),
           toI16 (beNat (seg data t.offset t.length) 14 2),
           toI16 (beNat (seg data t.offset t.length) 16 2),
           toI16 (beNat (seg data t.offset t.length) 18 2),
           toI16 (beNat (seg data t.offset t.length) 20 2),
           toI16 (beNat (seg data t.offset t.length) 22 2),
           toI16 (beNat (seg data t.offset t.length) 32 2),
           beNat (seg data t.offset t.length) 34 2⟩ ∧
    (show_xhea "hhea" data t).1 = xhea_fields ∧
    (show_xhea "vhea" data t).1 =
      ["ascender", "descender", "line_gap", "advance_height_max",
       "min_top_side_bearing", "min_bottom_side_bearing", "y_max_extent",
       "caret_slope_rise", "caret_slope_run", "caret_offset",
       "metric_data_format", "number_of_v_metrics"] := by
  refine ⟨rfl, ?_, ?_, ?_⟩
  · simp only [parse_xhea]
    rw [if_pos h]
  · simp only [show_xhea]
    rw [if_neg (by decide)]
  · simp only [show_xhea, if_true, eq_self_iff_true]
    decide

/-- Witness for C8 at a 36-byte all-zero metrics table. -/
theorem show_xhea_axis_only_labels_w :
    (show_xhea "hhea" (List.replicate 36 0) ⟨[104, 104, 101, 97], 0, 0, 36⟩).2 =
      (show_xhea "vhea" (List.replicate 36 0) ⟨[104, 104, 101, 97], 0, 0, 36⟩).2 ∧
    parse_xhea (List.replicate 36 0) ⟨[104, 104, 101, 97], 0, 0, 36⟩ =
      .ok ⟨toI16 (beNat (seg (List.replicate 36 0) 0 36) 4 2),
           toI16 (beNat (seg (List.replicate 36 0) 0 36) 6 2),
           toI16 (beNat (seg (List.replicate 36 0) 0 36) 8 2),
           beNat (seg (List.replicate 36 0) 0 36) 10 2,
           toI16 (beNat (seg (List.replicate 36 0) 0 36) 12 2),
           toI16 (beNat (seg (List.replicate 36 0) 0 36) 14 2),
           toI16 (beNat (seg (List.replicate 36 0) 0 36) 16 2),
           toI16 (beNat (seg (List.replicate 36 0) 0 36) 18 2),
           toI16 (beNat (seg (List.replicate 36 0) 0 36) 20 2),
           toI16 (beNat (seg (List.replicate 36 0) 0 36) 22 2),
           toI16 (beNat (seg (List.replicate 36 0) 0 36) 32 2),
           beNat (seg (List.replicate 36 0) 0 36) 34 2⟩ ∧
    (show_xhea "hhea" (List.replicate 36 0) ⟨[104, 104, 101, 97], 0, 0, 36⟩).1 = xhea_fields ∧
    (show_xhea "vhea" (List.replicate 36 0) ⟨[104, 104, 101, 97], 0, 0, 36⟩).1 =
      ["ascender", "descender", "line_gap", "advance_height_max",
       "min_top_side_bearing", "min_bottom_side_bearing", "y_max_extent",
       "caret_slope_rise", "caret_slope_run", "caret_offset",
       "metric_data_format", "number_of_v_metrics"] :=
  show_xhea_axis_only_labels "hhea" "vhea" (List.replicate 36 0)
    ⟨[104, 104, 101, 97], 0, 0, 36⟩ (by decide)
theorem nameEntries_ok_sound (d : List Nat) (so : Nat) :
    ∀ (L : List Nat) (l : List name_entry), nameEntries d so L = .ok l → ∀ i ∈ L,
      ∃ p enc lang nid len off,
        unpack6H d (6 + 12 * i) = .ok (p, enc, lang, nid, len, off) ∧
        (p = 3 → ∃ s, decodeByEnc enc (seg d (so + off) len) = some s) := by
  intro L
  induction L with
  | nil => intro l h i hi; simp at hi
  | cons j rest ih =>
    intro l h i hi
    rw [nameEntries] at h
    cases hu : unpack6H d (6 + 12 * j) with
    | error e => rw [hu] at h; simp at h
    | ok tup =>
      obtain ⟨p, enc, lang, nid, len, off⟩ := tup
      rw [hu] at h
      dsimp only at h
      by_cases hp : p = 3
      · rw [if_pos hp] at h
        cases hdec : decodeByEnc enc (seg d (so + off) len) with
        | none => rw [hdec] at h; simp at h
        | some s =>
          rw [hdec] at h
          cases hrest : nameEntries d so rest with
          | error e => rw [hrest] at h; simp at h
          | ok l2 =>
            rcases List.mem_cons.mp hi with rfl | hmem
            · exact ⟨p, enc, lang, nid, len, off, hu, fun _ => ⟨s, hdec⟩⟩
            · exact ih l2 hrest i hmem
      · rw [if_neg hp] at h
        rcases List.mem_cons.mp hi with rfl | hmem
        · exact ⟨p, enc, lang, nid, len, off, hu, fun hc => absurd hc hp⟩
        · exact ih l h i hmem

/-- C2 counterexample: a name table whose first platform-3 entry has
invalid bytes for its codec (one byte, odd length, big-endian UTF-16)
and whose second platform-3 entry would decode fine: parse_name raises
UnicodeDecodeError for the whole table instead of dropping the offending
entry and returning the remaining one. -/
theorem parse_name_bad_string_aborts_table :
    parse_name nameBadBuf ⟨[110, 97, 109, 101], 0, 0, 32⟩ = .error .unicodeDecodeError := by
  decide

/-- C2 amended: a string whose bytes are invalid for the selected codec
aborts the whole name-table decode with a raised UnicodeDecodeError;
nothing is dropped per entry: whenever parse_name succeeds, every record
in range unpacked and every platform-3 record among them had its string
decode successfully. -/
theorem parse_name_ok_requires_all_decodes (data : List Nat) (t : TableRec)
    (l : List name_entry) (h : parse_name data t = .ok l) (i : Nat)
    (hi : i < beNat (seg data t.offset t.length) 2 2) :
    ∃ p enc lang nid len off,
      unpack6H (seg data t.offset t.length) (6 + 12 * i) = .ok (p, enc, lang, nid, len, off) ∧
      (p = 3 → ∃ s,
        decodeByEnc enc
          (seg (seg data t.offset t.length)
            (beNat (seg data t.offset t.length) 4 2 + off) len) = some s) := by
  simp only [parse_name] at h
  by_cases h6 : 6 ≤ (seg data t.offset t.length).length
  · rw [if_pos h6] at h
    exact nameEntries_ok_sound _ _ _ l h i (List.mem_range.mpr hi)
  · rw [if_neg h6] at h
    exact absurd h (by simp)

/-- Witness for C2 amended at the concrete table nameOkBuf. -/
theorem parse_name_ok_requires_all_decodes_w :
    ∃ p enc lang nid len off,
      unpack6H (seg nameOkBuf 0 20) (6 + 12 * 0) = .ok (p, enc, lang, nid, len, off) ∧
      (p = 3 → ∃ s,
        decodeByEnc enc
          (seg (seg nameOkBuf 0 20) (beNat (seg nameOkBuf 0 20) 4 2 + off) len) = some s) :=
  parse_name_ok_requires_all_decodes nameOkBuf ⟨[110, 97, 109, 101], 0, 0, 20⟩
    [⟨3, 1, 1033, 1, "T"⟩] (by decide) 0 (by decide)

/-- C3 counterexample: a name table with one record declaring a 100-byte
string span starting at table byte 18 in a 20-byte table: parse_name
does not return an OutOfBounds error for the table; it silently decodes
the 2 available bytes and returns the truncated string T. -/
theorem parse_name_overlong_span_truncates :
    parse_name nameOverBuf ⟨[110, 97, 109, 101], 0, 0, 20⟩ =
      .ok [⟨3, 1, 1033, 1, "T"⟩] ∧
    nameOverBuf.length = 20 ∧ 20 < 18 + 100 := by
  decide

/-- C3 amended: a platform-3 record whose declared string span exceeds
the table slice never yields an OutOfBounds error: the span is silently
truncated by seg to the bytes available, so whenever the table decode
succeeds, the string handed to the codec was strictly shorter than the
declared length and still decoded. -/
theorem parse_name_truncated_span_no_error (data : List Nat) (t : TableRec)
    (l : List name_entry) (i p enc lang nid len off : Nat)
    (h : parse_name data t = .ok l)
    (hi : i < beNat (seg data t.offset t.length) 2 2)
    (hrec : unpack6H (seg data t.offset t.length) (6 + 12 * i) =
      .ok (p, enc, lang, nid, len, off))
    (hp : p = 3) (hpos : 0 < len)
    (hover : (seg data t.offset t.length).length <
      beNat (seg data t.offset t.length) 4 2 + off + len) :
    ∃ s, decodeByEnc enc (seg (seg data t.offset t.length)
        (beNat (seg data t.offset t.length) 4 2 + off) len) = some s ∧
      (seg (seg data t.offset t.length)
        (beNat (seg data t.offset t.length) 4 2 + off) len).length < len := by
  obtain ⟨p2, enc2, lang2, nid2, len2, off2, hu, hdec⟩ :=
    parse_name_ok_requires_all_decodes data t l h i hi
  rw [hrec] at hu
  simp only [Except.ok.injEq, Prod.mk.injEq] at hu
  obtain ⟨hp2, henc2, hlang2, hnid2, hlen2, hoff2⟩ := hu
  subst hp2
  subst henc2
  subst hlen2
  subst hoff2
  obtain ⟨s, hs⟩ := hdec hp
  refine ⟨s, hs, ?_⟩
  rw [length_seg]
  omega

/-- Witness for C3 amended at the concrete table nameOverBuf. -/
theorem parse_name_truncated_span_no_error_w :
    ∃ s, decodeByEnc 1 (seg (seg nameOverBuf 0 20)
        (beNat (seg nameOverBuf 0 20) 4 2 + 0) 100) = some s ∧
      (seg (seg nameOverBuf 0 20)
        (beNat (seg nameOverBuf 0 20) 4 2 + 0) 100).length < 100 :=
  parse_name_truncated_span_no_error nameOverBuf ⟨[110, 97, 109, 101], 0, 0, 20⟩
    [⟨3, 1, 1033, 1, "T"⟩] 0 3 1 1033 1 100 0
    (by decide) (by decide) (by decide) (by decide) (by decide) (by decide)

/-- C7 counterexample: a GSUB table with one tagged LangSys record
carrying requiredFeatureIndex 0xFFFF decodes to a result in which that
required-feature field is present verbatim as the number 65535, not
absent. -/
theorem gsub_required_ffff_kept_as_65535 :
    parse_gsub_gpos gsubBuf ⟨[71, 83, 85, 66], 0, 0, 44⟩ =
      .ok ([("latn", none, [("ENG ", 65535, [0])])], ["kern"]) := by
  decide

/-- C7 amended: the LangSys decoder performs no 0xFFFF check at all: a
successfully decoded LangSys record always carries its
requiredFeatureIndex verbatim as the big-endian 16-bit value at byte
base + 2, whatever that value is (the default-LangSys path then discards
the value entirely, for every value, as parseScripts shows). -/
theorem langsys_required_kept_verbatim (d : List Nat) (base req : Nat) (fs : List Nat)
    (h : parseLangSysAt d base = .ok (req, fs)) : req = beNat d (base + 2) 2 := by
  simp only [parseLangSysAt] at h
  by_cases c1 : base + 6 ≤ d.length
  · rw [if_pos c1] at h
    by_cases c2 : base + 6 + 2 * beNat d (base + 4) 2 ≤ d.length
    · rw [if_pos c2] at h
      simp only [Except.ok.injEq, Prod.mk.injEq] at h
      exact h.1.symm
    · rw [if_neg c2] at h
      exact absurd h (by simp)
  · rw [if_neg c1] at h
    exact absurd h (by simp)

/-- Witness for C7 amended: in gsubBuf the LangSys at byte 28 decodes
with requiredFeatureIndex 65535, the verbatim 16-bit value at byte 30. -/
theorem langsys_required_kept_verbatim_w : (65535 : Nat) = beNat gsubBuf (28 + 2) 2 :=
  langsys_required_kept_verbatim gsubBuf 28 65535 [0] (by decide)
